import Mathlib

/-!
Verification of the credit-scoring pipeline (`server/ml/credit_scoring.py`).

The two stages `analyze_data` and `train_models` are embedded shallowly:

* a pandas `DataFrame` becomes an ordered list of named columns of cells;
* numeric cells are modelled as `ℚ`, missing cells (`NaN`/`None`) as `Cell.null`;
* the JSON records printed by `log_output` become values of an `Event` type,
  and each stage returns the list of events it prints, in print order;
* the scikit-learn calls that actually fit models (grid search, prediction,
  metric computation) are opaque to the pipeline's control flow; they are
  abstracted by an `MLOracle` that, per candidate model, either returns a
  held-out ROC-AUC or raises.  Everything else (target inference, label
  encoding, feature engineering, data-quality scoring, event ordering,
  best-model tracking, exception handling) is embedded concretely.
-/

/-- A cell of a loaded DataFrame: a numeric value (modelled as `ℚ`), a text
value, or a missing value (pandas `NaN`). -/
inductive Cell where
  | num (q : ℚ)
  | str (s : String)
  | null
deriving DecidableEq

/-- A loaded pandas DataFrame: a row count plus an ordered list of named
columns.  Column names are assumed unique (pandas' CSV reader mangles
duplicate headers with `.1` suffixes before this code runs). -/
structure DataFrame where
  nrows : Nat
  cols : List (String × List Cell)
deriving DecidableEq

def DataFrame.colNames (df : DataFrame) : List String :=
  df.cols.map Prod.fst

def DataFrame.hasCol (df : DataFrame) (n : String) : Bool :=
  df.colNames.contains n

/-- `df[n]`: the values of the (first) column named `n`; `[]` if absent. -/
def DataFrame.getCol (df : DataFrame) (n : String) : List Cell :=
  (df.cols.lookup n).getD []

/-- `df[n] = vs`: pandas column assignment — overwrite in place when the name
exists, otherwise append the column at the end. -/
def DataFrame.setCol (df : DataFrame) (n : String) (vs : List Cell) : DataFrame :=
  if df.hasCol n then
    { df with cols := df.cols.map (fun c => if c.1 = n then (n, vs) else c) }
  else
    { df with cols := df.cols ++ [(n, vs)] }

def Cell.isNum : Cell → Bool
  | .num _ => true
  | _ => false

def Cell.isStr : Cell → Bool
  | .str _ => true
  | _ => false

def Cell.toNum? : Cell → Option ℚ
  | .num q => some q
  | _ => none

/-- A column has pandas dtype `object` iff it holds at least one text value
(an all-numeric or all-null column is a numeric dtype). -/
def isObjectCol (vs : List Cell) : Bool :=
  vs.any Cell.isStr

/-- `df.select_dtypes(include=[np.number]).columns` -/
def DataFrame.numericalCols (df : DataFrame) : List String :=
  (df.cols.filter (fun c => !isObjectCol c.2)).map Prod.fst

/-- `df.select_dtypes(include=['object']).columns` -/
def DataFrame.categoricalCols (df : DataFrame) : List String :=
  (df.cols.filter (fun c => isObjectCol c.2)).map Prod.fst

/-- Inferred dtype, as a string.  Numeric dtypes are collapsed to `"float64"`:
no claim inspects the precise numeric dtype name. -/
def dtypeOf (vs : List Cell) : String :=
  if isObjectCol vs then "object" else "float64"

/-- `df.isnull().sum().sum()` -/
def DataFrame.missingValues (df : DataFrame) : Nat :=
  (df.cols.map (fun c => (c.2.filter (· == Cell.null)).length)).sum

/-- Element-wise numeric division as pandas performs it.  A zero denominator
or a missing operand yields a non-finite/missing float, modelled as `null`
(no claim distinguishes `inf` from `NaN`). -/
def divCell : Cell → Cell → Cell
  | .num a, .num b => if b = 0 then .null else .num (a / b)
  | _, _ => .null

def colDiv (xs ys : List Cell) : List Cell :=
  List.zipWith divCell xs ys

/-- Row-wise mean skipping missing values (`DataFrame.mean(axis=1)`);
`null` (NaN) when no value in the row is numeric. -/
def rowMean (cells : List Cell) : Cell :=
  let nums := cells.filterMap Cell.toNum?
  if nums.length = 0 then .null else .num (nums.sum / nums.length)

/-- Column mean skipping missing values (`Series.mean()`).  On an `object`
column pandas raises; modelled as `Except.error`.  `none` models a `NaN`
mean (all values missing). -/
def colMeanExc (vs : List Cell) : Except String (Option ℚ) :=
  if isObjectCol vs then .error "could not convert string to float"
  else
    let nums := vs.filterMap Cell.toNum?
    .ok (if nums.length = 0 then none else some (nums.sum / nums.length))

/-- `str.lower()`: lowercase character by character (the inputs here are
ASCII column names, for which Python's `lower` is exactly the per-character
map). -/
def strToLower (s : String) : String :=
  ⟨s.data.map Char.toLower⟩

/-- `str.endswith(suffix)`. -/
def strEndsWith (s suf : String) : Bool :=
  decide (suf.data <:+ s.data)

/-- `needle in hay` for strings. -/
def containsSubstr (needle hay : String) : Bool :=
  decide (needle.toList <:+: hay.toList)

/-- `[col for col in df.columns if 'payment_delay' in col.lower()]` -/
def paymentDelayCols (df : DataFrame) : List String :=
  df.colNames.filter (fun n => containsSubstr "payment_delay" (strToLower n))

/-- `potential_targets = ['default', 'target', 'bad_loan', 'delinquent', 'class']` -/
def potential_targets : List String :=
  ["default", "target", "bad_loan", "delinquent", "class"]

/-- Target inference as written in `analyze_data` (lines 72–78): first column
whose lowercased name is in `potential_targets`. -/
def analyzeFindTarget (df : DataFrame) : Option String :=
  df.colNames.find? (fun c => potential_targets.contains (strToLower c))

/-- Target inference as written in `train_models` (lines 140–146): first
column whose lowercased name is in `potential_targets`. -/
def trainFindTarget (df : DataFrame) : Option String :=
  df.colNames.find? (fun c => potential_targets.contains (strToLower c))

/-- `completeness = (1 - missing_values / (total_records * features)) * 100`.
With zero cells the Python expression divides by zero and (numpy semantics,
warnings suppressed) produces `NaN`, modelled as `none`. -/
def completeness (totalRecords features missingValues : Nat) : Option ℚ :=
  if totalRecords * features = 0 then none
  else some ((1 - (missingValues : ℚ) / ((totalRecords : ℚ) * (features : ℚ))) * 100)

/-- The quality label chain (lines 87–94).  `none` (NaN) fails every `>`
comparison and falls through to `"Poor"`. -/
def dataQualityLabel : Option ℚ → String
  | none => "Poor"
  | some c =>
      if c > 95 then "Excellent"
      else if c > 85 then "Good"
      else if c > 70 then "Fair"
      else "Poor"

/-- Payload of the `dataset_summary` event (lines 101–117). -/
structure SummaryData where
  totalRecords : Nat
  features : Nat
  missingValues : Nat
  /-- `none` models a NaN default rate (all-missing target column). -/
  defaultRate : Option ℚ
  dataQuality : String
  columns : List String
  dtypes : List (String × String)
  numerical_cols : List String
  categorical_cols : List String
  target_column : Option String
deriving DecidableEq

/-- One JSON record printed by `log_output`.  `model_update` keeps the
`status` discriminator and the ROC-AUC of a completed candidate; the other
metric fields of a completed update and the `progress: 0` field of a
training update are elided (no claim inspects them).  `roc_data` keeps its
key list. -/
inductive Event where
  | feature_engineering (feature status : String)
  | dataset_summary (data : SummaryData)
  | model_update (modelType status : String) (rocAuc : Option ℚ)
  | roc_data (keys : List String)
  | best_model (modelType : Option String) (score : ℚ)
  | error (message : String)
deriving DecidableEq

def hasDTI (df : DataFrame) : Bool :=
  df.hasCol "debt_payments" && df.hasCol "income"

def hasCUR (df : DataFrame) : Bool :=
  df.hasCol "credit_used" && df.hasCol "credit_limit"

/-- The three `feature_engineering` events of lines 45–70, in program order. -/
def featureEvents (df : DataFrame) : List Event :=
  (if hasDTI df then [.feature_engineering "debt_to_income_ratio" "completed"] else []) ++
  (if hasCUR df then [.feature_engineering "credit_utilization_rate" "completed"] else []) ++
  (if (paymentDelayCols df).isEmpty then []
   else [.feature_engineering "avg_payment_delays" "completed"])

/-- `df[payment_delay_cols].mean(axis=1)` computed on the raw frame. -/
def avgPaymentCol (df : DataFrame) (names : List String) : List Cell :=
  (List.range df.nrows).map (fun i => rowMean (names.map (fun n => (df.getCol n).getD i Cell.null)))

/-- `df_processed`: the raw frame plus the conditionally derived columns
(lines 42–70).  Every derived value is computed from the raw frame `df`;
the assignments accumulate on the copy. -/
def processedDf (df : DataFrame) : DataFrame :=
  let d1 := if hasDTI df then
      df.setCol "debt_to_income_ratio" (colDiv (df.getCol "debt_payments") (df.getCol "income"))
    else df
  let d2 := if hasCUR df then
      d1.setCol "credit_utilization_rate" (colDiv (df.getCol "credit_used") (df.getCol "credit_limit"))
    else d1
  if (paymentDelayCols df).isEmpty then d2
  else d2.setCol "avg_payment_delays" (avgPaymentCol df (paymentDelayCols df))

/-- `default_rate` (lines 80–83): mean of the target column × 100 when a
target was found, else 0.  Raises when the target column is `object` dtype. -/
def defaultRateExc (df : DataFrame) (t : Option String) : Except String (Option ℚ) :=
  match t with
  | some c => (colMeanExc (df.getCol c)).map (fun m => m.map (· * 100))
  | none => .ok (some 0)

/-- The `dataset_summary` payload, computed — as in lines 101–117 — entirely
from the raw frame `df`, never from `df_processed`. -/
def summaryData (df : DataFrame) (t : Option String) (rate : Option ℚ) : SummaryData :=
  { totalRecords := df.nrows
    features := df.cols.length
    missingValues := df.missingValues
    defaultRate := rate
    dataQuality := dataQualityLabel (completeness df.nrows df.cols.length df.missingValues)
    columns := df.colNames
    dtypes := df.cols.map (fun c => (c.1, dtypeOf c.2))
    numerical_cols := df.numericalCols
    categorical_cols := df.categoricalCols
    target_column := t }

/-- Body of `analyze_data` after the file is loaded: the events printed (in
order) paired with either the `(df_processed, target_col)` result or the
exception that escaped to the stage's `except` clause.  The only modelled
raise site after loading is the target-column mean (the filesystem write at
line 98 is not modelled). -/
def analyzeCore (df : DataFrame) : List Event × Except String (DataFrame × Option String) :=
  let evs := featureEvents df
  let t := analyzeFindTarget df
  match defaultRateExc df t with
  | .error msg => (evs, .error msg)
  | .ok rate => (evs ++ [.dataset_summary (summaryData df t rate)], .ok (processedDf df, t))

/-- The input file handed to a stage: its path and, when the matching pandas
reader accepts it, its parsed tabular content (`none` models a file the
reader rejects with an exception). -/
structure FileInput where
  path : String
  content : Option DataFrame
deriving DecidableEq

/-- Lines 29–34: dispatch on the file extension; unsupported extensions
raise `ValueError("Unsupported file format")`. -/
def readFile (f : FileInput) : Except String DataFrame :=
  if strEndsWith f.path ".csv" then
    match f.content with
    | some df => .ok df
    | none => .error "could not parse file"
  else if strEndsWith f.path ".xlsx" || strEndsWith f.path ".xls" then
    match f.content with
    | some df => .ok df
    | none => .error "could not parse file"
  else .error "Unsupported file format"

/-- `analyze_data` (lines 25–126): returns the printed events, the processed
frame and the target column; any exception is caught at the top level,
converted to one `error` event, and the function returns `(none, none)`. -/
def analyze_data (f : FileInput) : List Event × Option DataFrame × Option String :=
  match readFile f with
  | .error msg => ([.error ("Error analyzing data: " ++ msg)], none, none)
  | .ok df =>
    match analyzeCore df with
    | (evs, .ok (dfp, t)) => (evs, some dfp, t)
    | (evs, .error msg) => (evs ++ [.error ("Error analyzing data: " ++ msg)], none, none)

/-! ### Label encoding (lines 160–166) -/

/-- `str(x)` as applied by `X[col].astype(str)`: a missing value prints as
`"nan"`; a numeric value prints via its decimal representation (the exact
float formatting is immaterial to the claims). -/
def Cell.pyStr : Cell → String
  | .str s => s
  | .num q => toString q
  | .null => "nan"

/-- String order by Unicode code points, as Python compares strings. -/
def strLeQ (a b : String) : Prop :=
  a.data ≤ b.data

instance : DecidableRel strLeQ := fun a b => inferInstanceAs (Decidable (a.data ≤ b.data))

/-- `LabelEncoder.fit` computes `classes_ = np.unique(values)`: the distinct
values in ascending lexicographic order. -/
def leClasses (xs : List String) : List String :=
  xs.dedup.insertionSort strLeQ

/-- `LabelEncoder.fit_transform`: each value is replaced by its index in the
sorted array of distinct values. -/
def leFitTransform (xs : List String) : List Nat :=
  let cs := leClasses xs
  xs.map (fun x => cs.indexOf x)

/-- `X[col] = le.fit_transform(X[col].astype(str))` for one column. -/
def encodeCol (vs : List Cell) : List Cell :=
  (leFitTransform (vs.map Cell.pyStr)).map (fun n : Nat => Cell.num (n : ℚ))

/-- Lines 160–166: every `object` column is replaced by its own encoder's
codes; each encoder sees only its own column. -/
def encodeCategoricals (X : DataFrame) : DataFrame :=
  { X with cols := X.cols.map (fun c => if isObjectCol c.2 then (c.1, encodeCol c.2) else c) }

/-- Modelled from the spec: a label encoding that assigns integer codes in
the order categories are first observed in the column (first distinct value
↦ 0, the next new value ↦ 1, …).  This is the behaviour §4.2 step 4
describes; it is compared against `leFitTransform`, the behaviour the code
(via scikit-learn's `LabelEncoder`) actually has. -/
def specFirstObservedEncode (xs : List String) : List Nat :=
  let firstSeen := xs.foldl (fun acc x => if acc.contains x then acc else acc ++ [x]) []
  xs.map (fun x => firstSeen.indexOf x)

/-! ### The training stage -/

/-- Abstraction of the scikit-learn calls inside `train_models`:
`prep` models the train/test split and scaling (lines 168–176), which can
raise (e.g. a stratification error); `fit name` models grid search, refit,
prediction and metric computation for one candidate (lines 220–269) and
yields the candidate's held-out ROC-AUC or the exception it raised. -/
structure MLOracle where
  prep : Except String Unit
  fit : String → Except String ℚ

/-- The fixed candidate order of the `models` dict (lines 179–204). -/
def modelNames : List String :=
  ["logistic_regression", "decision_tree", "random_forest"]

/-- The per-candidate loop (lines 210–300): for each candidate emit the
`training` update, run the oracle, then emit the `completed` update and
update the running best `(best_model, best_score)` when the new ROC-AUC is
strictly greater.  An oracle exception aborts the loop after the `training`
update of the failing candidate. -/
def trainLoop (o : MLOracle) :
    List String → Option String × ℚ → List Event × Except String (Option String × ℚ)
  | [], best => ([], .ok best)
  | name :: rest, best =>
    match o.fit name with
    | .error msg => ([.model_update name "training" none], .error msg)
    | .ok auc =>
      let best' := if auc > best.2 then (some name, auc) else best
      let r := trainLoop o rest best'
      (.model_update name "training" none :: .model_update name "completed" (some auc) :: r.1, r.2)

/-- Body of `train_models` once a frame is in hand (lines 140–323): events
printed, paired with the exception (if any) that escaped to the stage's
`except` clause.  A missing target column is not an exception: it prints its
own `error` event and returns normally (lines 148–153). -/
def trainCore (df : DataFrame) (o : MLOracle) : List Event × Except String Unit :=
  match trainFindTarget df with
  | none => ([.error "No target column found for training"], .ok ())
  | some t =>
    let X : DataFrame := { df with cols := df.cols.filter (fun c => !(c.1 == t)) }
    let _Xenc := encodeCategoricals X
    match o.prep with
    | .error msg => ([], .error msg)
    | .ok _ =>
      match trainLoop o modelNames (none, 0) with
      | (evs, .error msg) => (evs, .error msg)
      | (evs, .ok best) =>
        (evs ++ [.roc_data modelNames, .best_model best.1 best.2], .ok ())

/-- `train_models` (lines 128–329).  `processedFile` is the parsed content of
`processed_{project_id}.csv` when that file exists (lines 132–134); when it
does not, the stage runs `analyze_data` on the raw file and its events are
part of this stage's output stream (lines 135–138).  Any exception is caught
at the top level and converted to one `error` event. -/
def train_models (processedFile : Option DataFrame) (f : FileInput) (o : MLOracle) :
    List Event :=
  match processedFile with
  | some df =>
    (match trainCore df o with
     | (evs, .ok _) => evs
     | (evs, .error msg) => evs ++ [.error ("Error training models: " ++ msg)])
  | none =>
    match analyze_data f with
    | (evs, some df, _) =>
      (match trainCore df o with
       | (tevs, .ok _) => evs ++ tevs
       | (tevs, .error msg) => evs ++ tevs ++ [.error ("Error training models: " ++ msg)])
    | (evs, none, _) => evs



/-! ### Event classifiers and counters -/

def isFeatureEv : Event → Bool
  | .feature_engineering _ _ => true
  | _ => false

def isErrorEv : Event → Bool
  | .error _ => true
  | _ => false

def isModelUpdateEv : Event → Bool
  | .model_update _ _ _ => true
  | _ => false

def isSummaryEv : Event → Bool
  | .dataset_summary _ => true
  | _ => false

def isTrainingUpd : Event → Bool
  | .model_update _ s _ => s == "training"
  | _ => false

def isCompletedUpd : Event → Bool
  | .model_update _ s _ => s == "completed"
  | _ => false

/-- Number of `error` events in a stream. -/
def errCount (evs : List Event) : Nat :=
  (evs.filter isErrorEv).length

/-- Number of `model_update` events in a stream. -/
def muCount (evs : List Event) : Nat :=
  (evs.filter isModelUpdateEv).length

/-- An oracle in which preparation succeeds and the three candidates complete
with the given held-out ROC-AUC scores. -/
def scoreOracle (s₁ s₂ s₃ : ℚ) : MLOracle :=
  { prep := .ok ()
    fit := fun n =>
      .ok (if n == "logistic_regression" then s₁
           else if n == "decision_tree" then s₂ else s₃) }

/-! ### Concrete inputs used by witnesses and counterexamples -/

/-- The 1000-row dataset of the end-to-end scenario: columns
`debt_payments, income, credit_used, credit_limit, payment_delay_1,
payment_delay_2, default`. -/
def c1Raw : DataFrame :=
  { nrows := 1000
    cols :=
      [("debt_payments", List.replicate 1000 (Cell.num 1)),
       ("income", List.replicate 1000 (Cell.num 2)),
       ("credit_used", List.replicate 1000 (Cell.num 1)),
       ("credit_limit", List.replicate 1000 (Cell.num 4)),
       ("payment_delay_1", List.replicate 1000 (Cell.num 0)),
       ("payment_delay_2", List.replicate 1000 (Cell.num 2)),
       ("default", List.replicate 1000 (Cell.num 0))] }

def c1File : FileInput :=
  { path := "dataset.csv", content := some c1Raw }


/-- The event sequence shape asserted by the claim: 3 `feature_engineering`
events, 1 `dataset_summary` with target `"default"`, then 3 `model_update`
"training" events, then 3 `model_update` "completed" events, then 1
`roc_data` with 3 keys, then 1 `best_model` — in that exact order. -/
def c1ClaimedShape : List Event → Bool
  | [f1, f2, f3, .dataset_summary s, t1, t2, t3, d1, d2, d3, .roc_data ks, .best_model _ _] =>
      isFeatureEv f1 && isFeatureEv f2 && isFeatureEv f3 &&
      (s.target_column == some "default") &&
      isTrainingUpd t1 && isTrainingUpd t2 && isTrainingUpd t3 &&
      isCompletedUpd d1 && isCompletedUpd d2 && isCompletedUpd d3 &&
      (ks.length == 3)
  | _ => false

/-- A minimal frame with a usable target column, for training-stage
witnesses. -/
def tinyTrainDf : DataFrame :=
  { nrows := 2
    cols := [("income", [Cell.num 1, Cell.num 2]), ("default", [Cell.num 0, Cell.num 1])] }

def tinyTrainFile : FileInput :=
  { path := "tiny.csv", content := some tinyTrainDf }

/-- A frame that already contains an `avg_payment_delays` column whose value
differs from the mean of the other payment-delay columns. -/
def c9Df : DataFrame :=
  { nrows := 1
    cols := [("payment_delay_1", [Cell.num 0]), ("avg_payment_delays", [Cell.num 4])] }

/-- A frame with no candidate target column name. -/
def noTargetDf : DataFrame :=
  { nrows := 1
    cols := [("income", [Cell.num 3]), ("payment_delay_1", [Cell.num 1])] }

def noTargetFile : FileInput :=
  { path := "notarget.csv", content := some noTargetDf }

/-- A frame whose column names exercise case-insensitive first-match target
inference: two candidate names, the first in mixed case. -/
def twoTargetDf : DataFrame :=
  { nrows := 1
    cols := [("x", [Cell.num 1]), ("DeFault", [Cell.num 0]), ("class", [Cell.num 1])] }

/-- A one-column categorical frame on which sorted-order and first-observed
label encodings differ. -/
def c3Df : DataFrame :=
  { nrows := 2
    cols := [("town", [Cell.str "b", Cell.str "a"]), ("default", [Cell.num 0, Cell.num 1])] }

/-- The frame obtained after one application of the feature-engineering
transformation to `c9Df`. -/
def c9Once : DataFrame :=
  ⟨1, [("payment_delay_1", [Cell.num 0]), ("avg_payment_delays", [Cell.num 2])]⟩

/-- A one-column dataset with exactly one missing cell among 20: completeness
is exactly 95.0. -/
def c4Df : DataFrame :=
  ⟨20, [("x", Cell.null :: List.replicate 19 (Cell.num 1))]⟩

/-- The running-best fold of lines 206–208 and 281–284, specialised to the
three candidates with ROC-AUCs `s₁, s₂, s₃`: start from `(None, 0)` and
replace on strictly greater score. -/
def bestPair (s₁ s₂ s₃ : ℚ) : Option String × ℚ :=
  let b1 := if s₁ > 0 then (some "logistic_regression", s₁) else (none, 0)
  let b2 := if s₂ > b1.2 then (some "decision_tree", s₂) else b1
  if s₃ > b2.2 then (some "random_forest", s₃) else b2

/-- The combined analyze-then-train event stream on the scenario dataset,
with the three candidates completing at the given scores. -/
def c1RunWith (s₁ s₂ s₃ : ℚ) : List Event :=
  (analyze_data c1File).1 ++ train_models (some (processedDf c1Raw)) c1File (scoreOracle s₁ s₂ s₃)

/-! ## General lemmas about the embedding -/

theorem beq_num_null (q : ℚ) : (Cell.num q == Cell.null) = false := rfl

theorem toNum_num (q : ℚ) : Cell.toNum? (Cell.num q) = some q := rfl

theorem isObjectCol_replicate_num (n : Nat) (q : ℚ) :
    isObjectCol (List.replicate n (Cell.num q)) = false := by
  induction n with
  | zero => rfl
  | succ m ih =>
    rw [List.replicate_succ]
    simp only [isObjectCol, List.any_cons] at ih ⊢
    simp [Cell.isStr, ih]

theorem filter_null_replicate_num (n : Nat) (q : ℚ) :
    (List.replicate n (Cell.num q)).filter (· == Cell.null) = [] := by
  rw [List.filter_replicate, beq_num_null]
  simp

theorem filterMap_toNum_replicate (n : Nat) (q : ℚ) :
    (List.replicate n (Cell.num q)).filterMap Cell.toNum? = List.replicate n q := by
  rw [List.filterMap_replicate, toNum_num]

theorem nrows_setCol (df : DataFrame) (n : String) (vs : List Cell) :
    (df.setCol n vs).nrows = df.nrows := by
  unfold DataFrame.setCol
  split <;> rfl

theorem colNames_setCol (df : DataFrame) (n : String) (vs : List Cell) :
    (df.setCol n vs).colNames =
      if df.hasCol n then df.colNames else df.colNames ++ [n] := by
  unfold DataFrame.setCol
  by_cases h : df.hasCol n
  · simp only [h, if_true, DataFrame.colNames, List.map_map]
    apply List.map_congr_left
    intro a _
    simp only [Function.comp_apply]
    by_cases ha : a.1 = n
    · rw [if_pos ha, ha]
    · rw [if_neg ha]
  · simp [h, DataFrame.colNames]

theorem lookup_replaceAll (l : List (String × List Cell)) (n : String) (vs : List Cell)
    (hm : n ∈ l.map Prod.fst) :
    List.lookup n (l.map (fun c => if c.1 = n then (n, vs) else c)) = some vs := by
  induction l with
  | nil => simp at hm
  | cons a t ih =>
    obtain ⟨k, b⟩ := a
    by_cases ha : k = n
    · rw [List.map_cons]
      simp only [ha, if_pos rfl]
      rw [List.lookup_cons]
      simp
    · rw [List.map_cons]
      simp only [if_neg (by simpa using ha)]
      rw [List.lookup_cons]
      have hne : (n == k) = false := by simp [Ne.symm ha]
      rw [hne]
      apply ih
      simp only [List.map_cons, List.mem_cons] at hm
      rcases hm with hm | hm
      · exact absurd hm.symm ha
      · exact hm

theorem lookup_not_mem (l : List (String × List Cell)) (n : String)
    (hm : n ∉ l.map Prod.fst) : List.lookup n l = none := by
  induction l with
  | nil => rfl
  | cons a t ih =>
    obtain ⟨k, b⟩ := a
    simp only [List.map_cons, List.mem_cons, not_or] at hm
    rw [List.lookup_cons]
    have hne : (n == k) = false := by simp [hm.1]
    rw [hne]
    exact ih hm.2

theorem lookup_append_not_mem (l₁ l₂ : List (String × List Cell)) (n : String)
    (hm : n ∉ l₁.map Prod.fst) :
    List.lookup n (l₁ ++ l₂) = List.lookup n l₂ := by
  induction l₁ with
  | nil => rfl
  | cons a t ih =>
    obtain ⟨k, b⟩ := a
    simp only [List.map_cons, List.mem_cons, not_or] at hm
    rw [List.cons_append, List.lookup_cons]
    have hne : (n == k) = false := by simp [hm.1]
    rw [hne]
    exact ih hm.2

theorem hasCol_iff_mem (df : DataFrame) (n : String) :
    df.hasCol n = true ↔ n ∈ df.cols.map Prod.fst := by
  unfold DataFrame.hasCol DataFrame.colNames
  simp

theorem getCol_setCol_self (df : DataFrame) (n : String) (vs : List Cell) :
    (df.setCol n vs).getCol n = vs := by
  unfold DataFrame.setCol
  by_cases h : df.hasCol n
  · rw [if_pos h]
    unfold DataFrame.getCol
    rw [lookup_replaceAll]
    · rfl
    · exact (hasCol_iff_mem df n).mp h
  · rw [if_neg h]
    unfold DataFrame.getCol
    rw [lookup_append_not_mem]
    · rw [List.lookup_cons]
      simp
    · intro hmem
      exact h ((hasCol_iff_mem df n).mpr hmem)

theorem range_one_eq : List.range 1 = [0] := rfl

theorem processedDf_c9 :
    processedDf c9Df =
      ⟨1, [("payment_delay_1", [Cell.num 0]), ("avg_payment_delays", [Cell.num 2])]⟩ := by
  have h1 : hasDTI c9Df = false := by decide
  have h2 : hasCUR c9Df = false := by decide
  have hp : paymentDelayCols c9Df = ["payment_delay_1", "avg_payment_delays"] := by decide
  have havg : avgPaymentCol c9Df ["payment_delay_1", "avg_payment_delays"] = [Cell.num 2] := by
    simp only [avgPaymentCol, c9Df, range_one_eq]
    simp [DataFrame.getCol, List.lookup, rowMean, Cell.toNum?]
    norm_num
  simp only [processedDf, h1, h2, hp, Bool.false_eq_true, if_false,
    if_neg (by decide : ¬(["payment_delay_1", "avg_payment_delays"].isEmpty = true)), havg]
  simp [DataFrame.setCol, c9Df, DataFrame.hasCol, DataFrame.colNames]


theorem processedDf_c9_twice :
    processedDf c9Once =
      ⟨1, [("payment_delay_1", [Cell.num 0]), ("avg_payment_delays", [Cell.num 1])]⟩ := by
  have h1 : hasDTI c9Once = false := by decide
  have h2 : hasCUR c9Once = false := by decide
  have hp : paymentDelayCols c9Once = ["payment_delay_1", "avg_payment_delays"] := by decide
  have havg : avgPaymentCol c9Once ["payment_delay_1", "avg_payment_delays"] = [Cell.num 1] := by
    simp only [avgPaymentCol, c9Once, range_one_eq]
    simp [DataFrame.getCol, List.lookup, rowMean, Cell.toNum?]
  simp only [processedDf, h1, h2, hp, Bool.false_eq_true, if_false,
    if_neg (by decide : ¬(["payment_delay_1", "avg_payment_delays"].isEmpty = true)), havg]
  simp [DataFrame.setCol, c9Once, DataFrame.hasCol, DataFrame.colNames]

/-- **C9.** The `'payment_delay' in col.lower()` substring rule matches the
derived column's own name: on an input that already contains a column named
`avg_payment_delays`, the analyze stage's feature engineering includes that
column among the columns averaged, and applying the transformation twice
differs from applying it once — it is not idempotent on the
`avg_payment_delays` values. -/
theorem claim_C9_avg_payment_delays_self_match :
    "avg_payment_delays" ∈ paymentDelayCols c9Df ∧
    (processedDf (processedDf c9Df)).getCol "avg_payment_delays" ≠
      (processedDf c9Df).getCol "avg_payment_delays" ∧
    processedDf (processedDf c9Df) ≠ processedDf c9Df := by
  refine ⟨by decide, ?_, ?_⟩
  · rw [processedDf_c9]
    rw [show (⟨1, [("payment_delay_1", [Cell.num 0]), ("avg_payment_delays", [Cell.num 2])]⟩ :
        DataFrame) = c9Once from rfl]
    rw [processedDf_c9_twice]
    simp [DataFrame.getCol, List.lookup]
  · intro h
    rw [processedDf_c9] at h
    rw [show (⟨1, [("payment_delay_1", [Cell.num 0]), ("avg_payment_delays", [Cell.num 2])]⟩ :
        DataFrame) = c9Once from rfl] at h
    rw [processedDf_c9_twice] at h
    simp [c9Once, DataFrame.mk.injEq] at h

/-! ### Label-encoder lemmas (C3) -/

instance : IsTotal String strLeQ :=
  ⟨fun a b => le_total a.data b.data⟩

instance : IsTrans String strLeQ :=
  ⟨fun _ _ _ h₁ h₂ => le_trans h₁ h₂⟩

theorem strDataInj {a b : String} (h : a.data = b.data) : a = b := by
  cases a
  cases b
  cases h
  rfl

/-- In a `≤`-sorted duplicate-free list, the index of an element is the
number of elements strictly smaller than it. -/
theorem indexOf_sorted_eq_count_lt (l : List String) (hs : l.Sorted strLeQ) (hn : l.Nodup) :
    ∀ x ∈ l, l.indexOf x = (l.filter (fun y => decide (y.data < x.data))).length := by
  induction l with
  | nil => intro x hx; simp at hx
  | cons a t ih =>
    intro x hx
    rw [List.sorted_cons] at hs
    rw [List.nodup_cons] at hn
    rcases List.mem_cons.mp hx with rfl | hxt
    · rw [List.indexOf_cons_self]
      have hfa : (decide (x.data < x.data)) = false := by simp
      have hft : t.filter (fun y => decide (y.data < x.data)) = [] := by
        rw [List.filter_eq_nil_iff]
        intro b hb
        have : x.data ≤ b.data := hs.1 b hb
        simp only [decide_eq_true_eq]
        exact not_lt_of_le this
      simp [List.filter_cons, hfa, hft]
    · have hax : x ≠ a := fun h => hn.1 (h ▸ hxt)
      rw [List.indexOf_cons_ne _ (Ne.symm hax)]
      have halt : (decide (a.data < x.data)) = true := by
        simp only [decide_eq_true_eq]
        have hle : a.data ≤ x.data := hs.1 x hxt
        rcases lt_or_eq_of_le hle with h | h
        · exact h
        · exact absurd (strDataInj h).symm hax
      rw [List.filter_cons, if_pos (by simp [halt])]
      simp only [List.length_cons]
      rw [ih hs.2 hn.2 x hxt]
  

theorem leClasses_sorted (xs : List String) : (leClasses xs).Sorted strLeQ :=
  List.sorted_insertionSort strLeQ xs.dedup

theorem leClasses_nodup (xs : List String) : (leClasses xs).Nodup :=
  ((List.perm_insertionSort strLeQ xs.dedup).nodup_iff).mpr (List.nodup_dedup xs)

theorem mem_leClasses (xs : List String) (x : String) (hx : x ∈ xs) : x ∈ leClasses xs :=
  ((List.perm_insertionSort strLeQ xs.dedup).mem_iff).mpr (List.mem_dedup.mpr hx)

theorem leClasses_filter_length (xs : List String) (p : String → Bool) :
    ((leClasses xs).filter p).length = ((xs.dedup).filter p).length :=
  ((List.perm_insertionSort strLeQ xs.dedup).filter p).length_eq

/-- `LabelEncoder` assigns to each value the number of distinct values of the
column that are lexicographically strictly smaller. -/
theorem leFitTransform_rank (xs : List String) :
    leFitTransform xs =
      xs.map (fun x => ((xs.dedup).filter (fun y => decide (y.data < x.data))).length) := by
  unfold leFitTransform
  apply List.map_congr_left
  intro x hx
  rw [indexOf_sorted_eq_count_lt (leClasses xs) (leClasses_sorted xs) (leClasses_nodup xs) x
    (mem_leClasses xs x hx)]
  exact leClasses_filter_length xs _

/-- **C3 (amended).**  Every categorical (`object`-dtype) feature column is
encoded with its own independent label encoder, but the integer codes are
assigned in ascending lexicographic order of the column's distinct
stringified values — each cell receives the number of distinct values
strictly smaller than its own — not in first-observed order. -/
theorem claim_C3_amended (X : DataFrame) (name : String) (vs : List Cell)
    (hmem : (name, vs) ∈ X.cols) (hobj : isObjectCol vs = true) :
    (name, encodeCol vs) ∈ (encodeCategoricals X).cols ∧
    encodeCol vs = vs.map (fun c =>
      Cell.num ((((vs.map Cell.pyStr).dedup).filter
        (fun y => decide (y.data < (Cell.pyStr c).data))).length)) := by
  constructor
  · unfold encodeCategoricals
    simp only [List.mem_map]
    exact ⟨(name, vs), hmem, by simp [hobj]⟩
  · unfold encodeCol
    rw [leFitTransform_rank]
    simp [List.map_map, Function.comp]

/-- Witness for C3 (amended): the `town` column of `c3Df`, feature frame of
the training stage, is `object`-dtype and receives the sorted-rank codes. -/
theorem claim_C3_amended_witness :
    ("town", encodeCol [Cell.str "b", Cell.str "a"]) ∈
      (encodeCategoricals ⟨2, [("town", [Cell.str "b", Cell.str "a"])]⟩).cols ∧
    encodeCol [Cell.str "b", Cell.str "a"] =
      [Cell.str "b", Cell.str "a"].map (fun c =>
        Cell.num (((([Cell.str "b", Cell.str "a"].map Cell.pyStr).dedup).filter
          (fun y => decide (y.data < (Cell.pyStr c).data))).length)) :=
  claim_C3_amended ⟨2, [("town", [Cell.str "b", Cell.str "a"])]⟩ "town"
    [Cell.str "b", Cell.str "a"] (by simp) (by decide)

/-- **C3 (counterexample).**  On the column `["b", "a"]` the code assigns
codes `[1, 0]` (sorted order) while first-observed order would assign
`[0, 1]`: the claim's code-assignment order is false. -/
theorem claim_C3_counterexample :
    c3Df.getCol "town" = [Cell.str "b", Cell.str "a"] ∧
    isObjectCol (c3Df.getCol "town") = true ∧
    leFitTransform ((c3Df.getCol "town").map Cell.pyStr) = [1, 0] ∧
    specFirstObservedEncode ((c3Df.getCol "town").map Cell.pyStr) = [0, 1] ∧
    leFitTransform ((c3Df.getCol "town").map Cell.pyStr) ≠
      specFirstObservedEncode ((c3Df.getCol "town").map Cell.pyStr) := by
  decide

/-! ### Data-quality lemmas (C4) -/

/-- **C4.**  When the analyze stage succeeds on a dataset with at least one
cell, the `dataset_summary` event's quality label is derived from
`completeness = (1 - missing/(records*features))*100` with exclusive lower
bounds `>95 / >85 / >70`, and a completeness of exactly 95 yields `"Good"`,
not `"Excellent"`. -/
theorem claim_C4_completeness_quality (df : DataFrame) (evs : List Event)
    (r : DataFrame × Option String)
    (hnz : 0 < df.nrows * df.cols.length)
    (hok : analyzeCore df = (evs, .ok r)) :
    ∃ s c,
      Event.dataset_summary s ∈ evs ∧
      completeness df.nrows df.cols.length df.missingValues = some c ∧
      c = (1 - (df.missingValues : ℚ) / ((df.nrows : ℚ) * (df.cols.length : ℚ))) * 100 ∧
      s.dataQuality = dataQualityLabel (completeness df.nrows df.cols.length df.missingValues) ∧
      (s.dataQuality = "Excellent" ↔ 95 < c) ∧
      (s.dataQuality = "Good" ↔ 85 < c ∧ c ≤ 95) ∧
      (s.dataQuality = "Fair" ↔ 70 < c ∧ c ≤ 85) ∧
      (s.dataQuality = "Poor" ↔ c ≤ 70) ∧
      (c = 95 → s.dataQuality = "Good") := by
  simp only [analyzeCore] at hok
  rcases hd : defaultRateExc df (analyzeFindTarget df) with msg | rate
  · rw [hd] at hok
    simp at hok
  · rw [hd] at hok
    have hevs : featureEvents df ++
        [Event.dataset_summary (summaryData df (analyzeFindTarget df) rate)] = evs :=
      congrArg Prod.fst hok
    set c := (1 - (df.missingValues : ℚ) / ((df.nrows : ℚ) * (df.cols.length : ℚ))) * 100 with hc
    have hcomp : completeness df.nrows df.cols.length df.missingValues = some c := by
      unfold completeness
      rw [if_neg (Nat.pos_iff_ne_zero.mp hnz)]
    refine ⟨summaryData df (analyzeFindTarget df) rate, c, ?_, hcomp, rfl, rfl, ?_⟩
    · rw [← hevs]
      exact List.mem_append_right _ (List.mem_singleton.mpr rfl)
    · have hq : (summaryData df (analyzeFindTarget df) rate).dataQuality =
          dataQualityLabel (some c) := by
        unfold summaryData
        rw [hcomp]
      rw [hq]
      simp only [dataQualityLabel]
      by_cases h1 : c > 95
      · rw [if_pos h1]
        refine ⟨by simp [h1], ?_, ?_, ?_, ?_⟩
        · constructor
          · intro h; exact absurd h (by decide)
          · intro h; linarith [h.2]
        · constructor
          · intro h; exact absurd h (by decide)
          · intro h; linarith [h.2]
        · constructor
          · intro h; exact absurd h (by decide)
          · intro h; linarith
        · intro h; linarith
      · rw [if_neg h1]
        by_cases h2 : c > 85
        · rw [if_pos h2]
          refine ⟨?_, ?_, ?_, ?_, ?_⟩
          · constructor
            · intro h; exact absurd h (by decide)
            · intro h; linarith
          · simp [h2, le_of_not_lt h1]
          · constructor
            · intro h; exact absurd h (by decide)
            · intro h; linarith [h.2]
          · constructor
            · intro h; exact absurd h (by decide)
            · intro h; linarith
          · intro _; rfl
        · rw [if_neg h2]
          by_cases h3 : c > 70
          · rw [if_pos h3]
            refine ⟨?_, ?_, ?_, ?_, ?_⟩
            · constructor
              · intro h; exact absurd h (by decide)
              · intro h; linarith
            · constructor
              · intro h; exact absurd h (by decide)
              · intro h; linarith [h.1]
            · simp [h3, le_of_not_lt h2]
            · constructor
              · intro h; exact absurd h (by decide)
              · intro h; linarith
            · intro h; linarith
          · rw [if_neg h3]
            refine ⟨?_, ?_, ?_, ?_, ?_⟩
            · constructor
              · intro h; exact absurd h (by decide)
              · intro h; linarith
            · constructor
              · intro h; exact absurd h (by decide)
              · intro h; linarith [h.1]
            · constructor
              · intro h; exact absurd h (by decide)
              · intro h; linarith [h.1]
            · simp [le_of_not_lt h3]
            · intro h; linarith

theorem c4Df_missing : c4Df.missingValues = 1 := by
  simp [c4Df, DataFrame.missingValues, List.filter_cons, filter_null_replicate_num]

theorem c4Df_analyzeCore :
    analyzeCore c4Df =
      ([Event.dataset_summary (summaryData c4Df none (some 0))],
        .ok (processedDf c4Df, none)) := by
  have hf : featureEvents c4Df = [] := by decide
  have ht : analyzeFindTarget c4Df = none := by decide
  simp only [analyzeCore, hf, ht, defaultRateExc]
  rfl

/-- Witness for C4: on `c4Df` (20 cells, 1 missing, completeness exactly 95)
the summary's quality label is `"Good"`. -/
theorem claim_C4_witness :
    (0 < c4Df.nrows * c4Df.cols.length) ∧
    ∃ s c,
      Event.dataset_summary s ∈
        [Event.dataset_summary (summaryData c4Df none (some 0))] ∧
      completeness c4Df.nrows c4Df.cols.length c4Df.missingValues = some c ∧
      c = (1 - (c4Df.missingValues : ℚ) /
            ((c4Df.nrows : ℚ) * (c4Df.cols.length : ℚ))) * 100 ∧
      s.dataQuality =
        dataQualityLabel (completeness c4Df.nrows c4Df.cols.length c4Df.missingValues) ∧
      (s.dataQuality = "Excellent" ↔ 95 < c) ∧
      (s.dataQuality = "Good" ↔ 85 < c ∧ c ≤ 95) ∧
      (s.dataQuality = "Fair" ↔ 70 < c ∧ c ≤ 85) ∧
      (s.dataQuality = "Poor" ↔ c ≤ 70) ∧
      (c = 95 → s.dataQuality = "Good") :=
  ⟨by decide,
    claim_C4_completeness_quality c4Df _ _ (by decide) c4Df_analyzeCore⟩

/-! ### Target-inference lemmas (C5) -/

theorem find?_eq_some_split {α : Type} (p : α → Bool) (l : List α) (c : α)
    (h : l.find? p = some c) :
    ∃ pre post, l = pre ++ c :: post ∧ p c = true ∧ ∀ b ∈ pre, p b = false := by
  induction l with
  | nil => simp at h
  | cons a t ih =>
    by_cases pa : p a
    · rw [List.find?_cons_of_pos _ pa] at h
      obtain rfl : a = c := by injection h
      exact ⟨[], t, rfl, pa, by simp⟩
    · rw [List.find?_cons_of_neg _ pa] at h
      obtain ⟨pre, post, heq, hc, hpre⟩ := ih h
      refine ⟨a :: pre, post, by rw [heq, List.cons_append], hc, ?_⟩
      intro b hb
      rcases List.mem_cons.mp hb with rfl | hb
      · exact eq_false_of_ne_true pa
      · exact hpre b hb

/-- **C5.**  Both stages identify the target column by the same rule: the
first column in left-to-right order whose lowercased name is exactly one of
`default`, `target`, `bad_loan`, `delinquent`, `class`; matching is
case-insensitive (via lowercasing) and the first match wins. -/
theorem claim_C5_target_rule (df : DataFrame) :
    analyzeFindTarget df = trainFindTarget df ∧
    (∀ c, trainFindTarget df = some c →
      ∃ pre post, df.colNames = pre ++ c :: post ∧
        potential_targets.contains (strToLower c) = true ∧
        ∀ b ∈ pre, potential_targets.contains (strToLower b) = false) ∧
    (trainFindTarget df = none ↔
      ∀ b ∈ df.colNames, potential_targets.contains (strToLower b) = false) := by
  refine ⟨rfl, ?_, ?_⟩
  · intro c hc
    exact find?_eq_some_split _ _ _ hc
  · unfold trainFindTarget
    rw [List.find?_eq_none]
    constructor
    · intro h b hb
      exact eq_false_of_ne_true (h b hb)
    · intro h b hb
      rw [h b hb]
      simp

/-- Witness for C5 on a frame with two candidate target names, the first in
mixed case (`DeFault` before `class`). -/
theorem claim_C5_witness :
    analyzeFindTarget twoTargetDf = trainFindTarget twoTargetDf ∧
    (∀ c, trainFindTarget twoTargetDf = some c →
      ∃ pre post, twoTargetDf.colNames = pre ++ c :: post ∧
        potential_targets.contains (strToLower c) = true ∧
        ∀ b ∈ pre, potential_targets.contains (strToLower b) = false) ∧
    (trainFindTarget twoTargetDf = none ↔
      ∀ b ∈ twoTargetDf.colNames, potential_targets.contains (strToLower b) = false) :=
  claim_C5_target_rule twoTargetDf

/-! ### Feature-event ordering (C10) -/

theorem mem_ite_singleton {c : Prop} [Decidable c] {x e : Event}
    (he : e ∈ (if c then [x] else [])) : e = x := by
  split at he
  · simpa using he
  · simp at he

theorem mem_ite_singleton_rev {c : Prop} [Decidable c] {x e : Event}
    (he : e ∈ (if c then [] else [x])) : e = x := by
  split at he
  · simp at he
  · simpa using he

theorem featureEvents_sublist (df : DataFrame) :
    (featureEvents df).Sublist
      [Event.feature_engineering "debt_to_income_ratio" "completed",
       Event.feature_engineering "credit_utilization_rate" "completed",
       Event.feature_engineering "avg_payment_delays" "completed"] := by
  unfold featureEvents
  have hsplit :
      ([Event.feature_engineering "debt_to_income_ratio" "completed"] ++
        [Event.feature_engineering "credit_utilization_rate" "completed"]) ++
        [Event.feature_engineering "avg_payment_delays" "completed"] =
      [Event.feature_engineering "debt_to_income_ratio" "completed",
       Event.feature_engineering "credit_utilization_rate" "completed",
       Event.feature_engineering "avg_payment_delays" "completed"] := rfl
  rw [← hsplit]
  refine List.Sublist.append (List.Sublist.append ?_ ?_) ?_ <;>
    (split <;> simp)

theorem featureEvents_all_fe (df : DataFrame) :
    ∀ e ∈ featureEvents df, isFeatureEv e = true := by
  intro e he
  unfold featureEvents at he
  rcases List.mem_append.mp he with h | h
  · rcases List.mem_append.mp h with h | h
    · rw [mem_ite_singleton h]; rfl
    · rw [mem_ite_singleton h]; rfl
  · rw [mem_ite_singleton_rev h]; rfl

/-- **C10.**  The events of an analyze run split into a prefix of
`feature_engineering` events — a subsequence of the fixed order
debt_to_income_ratio, credit_utilization_rate, avg_payment_delays — followed
by events none of which is a `feature_engineering` event; in particular the
`dataset_summary` event (when emitted) comes after every
`feature_engineering` event. -/
theorem claim_C10_feature_event_order (f : FileInput) :
    ∃ pre post, (analyze_data f).1 = pre ++ post ∧
      pre.Sublist
        [Event.feature_engineering "debt_to_income_ratio" "completed",
         Event.feature_engineering "credit_utilization_rate" "completed",
         Event.feature_engineering "avg_payment_delays" "completed"] ∧
      (∀ e ∈ pre, isFeatureEv e = true) ∧
      (∀ e ∈ post, isFeatureEv e = false) := by
  rcases hr : readFile f with msg | df
  · refine ⟨[], [.error ("Error analyzing data: " ++ msg)], ?_, List.nil_sublist _, by simp, ?_⟩
    · simp [analyze_data, hr]
    · intro e he
      simp only [List.mem_singleton] at he
      simp [he, isFeatureEv]
  · rcases hd : defaultRateExc df (analyzeFindTarget df) with msg | rate
    · refine ⟨featureEvents df, [.error ("Error analyzing data: " ++ msg)], ?_,
        featureEvents_sublist df, featureEvents_all_fe df, ?_⟩
      · simp [analyze_data, hr, analyzeCore, hd]
      · intro e he
        simp only [List.mem_singleton] at he
        simp [he, isFeatureEv]
    · refine ⟨featureEvents df,
        [.dataset_summary (summaryData df (analyzeFindTarget df) rate)], ?_,
        featureEvents_sublist df, featureEvents_all_fe df, ?_⟩
      · simp [analyze_data, hr, analyzeCore, hd]
      · intro e he
        simp only [List.mem_singleton] at he
        simp [he, isFeatureEv]

/-- Witness for C10 at the scenario input `c1File`. -/
theorem claim_C10_witness :
    ∃ pre post, (analyze_data c1File).1 = pre ++ post ∧
      pre.Sublist
        [Event.feature_engineering "debt_to_income_ratio" "completed",
         Event.feature_engineering "credit_utilization_rate" "completed",
         Event.feature_engineering "avg_payment_delays" "completed"] ∧
      (∀ e ∈ pre, isFeatureEv e = true) ∧
      (∀ e ∈ post, isFeatureEv e = false) :=
  claim_C10_feature_event_order c1File

/-! ### Missing-target behaviour (C6) -/

theorem findTarget_setCol_none (df : DataFrame) (n : String) (vs : List Cell)
    (hp : potential_targets.contains (strToLower n) = false)
    (h : trainFindTarget df = none) : trainFindTarget (df.setCol n vs) = none := by
  unfold trainFindTarget at h ⊢
  rw [colNames_setCol]
  split
  · exact h
  · rw [List.find?_append, h, Option.none_or]
    rw [List.find?_cons_of_neg _ (by rw [hp]; simp)]
    rfl

theorem trainFindTarget_processedDf_none (df : DataFrame)
    (h : trainFindTarget df = none) : trainFindTarget (processedDf df) = none := by
  unfold processedDf
  by_cases h1 : hasDTI df = true <;> by_cases h2 : hasCUR df = true <;>
    by_cases h3 : (paymentDelayCols df).isEmpty = true <;>
      simp only [h1, h2, h3, if_true, if_false, Bool.false_eq_true] <;>
      (repeat
        first
          | exact h
          | refine findTarget_setCol_none _ _ _ (by decide) ?_)

theorem filter_len_zero {p : Event → Bool} {l : List Event}
    (h : ∀ e ∈ l, p e = false) : (l.filter p).length = 0 := by
  rw [List.filter_eq_nil_iff.mpr (fun a ha => by simp [h a ha])]
  rfl

theorem analyzeEvents_no_err_no_mu (df : DataFrame) (rate : Option ℚ) :
    ∀ e ∈ featureEvents df ++
        [Event.dataset_summary (summaryData df (analyzeFindTarget df) rate)],
      isErrorEv e = false ∧ isModelUpdateEv e = false := by
  intro e he
  rcases List.mem_append.mp he with h | h
  · have hf := featureEvents_all_fe df e h
    cases e <;> first
      | exact ⟨rfl, rfl⟩
      | simp [isFeatureEv] at hf
  · rw [List.mem_singleton.mp h]
    exact ⟨rfl, rfl⟩

/-- **C6.**  On a dataset with none of the five candidate target names, the
train stage emits exactly one `error` event, with message
`"No target column found for training"`, and zero `model_update` events —
both when the processed file already exists and when training falls back to
running the analyze stage first. -/
theorem claim_C6_no_target (df : DataFrame) (f : FileInput) (o : MLOracle)
    (h : trainFindTarget df = none) :
    train_models (some df) f o = [.error "No target column found for training"] ∧
    (readFile f = .ok df →
      train_models none f o =
        (featureEvents df ++
          [Event.dataset_summary (summaryData df (analyzeFindTarget df) (some 0))]) ++
        [.error "No target column found for training"] ∧
      errCount (train_models none f o) = 1 ∧
      muCount (train_models none f o) = 0) := by
  have hcore : trainCore df o = ([.error "No target column found for training"], .ok ()) := by
    simp only [trainCore, h]
  constructor
  · simp only [train_models, hcore]
  · intro hr
    have hta : analyzeFindTarget df = none := h
    have hAnalyze : analyze_data f =
        (featureEvents df ++
          [Event.dataset_summary (summaryData df (analyzeFindTarget df) (some 0))],
          some (processedDf df), analyzeFindTarget df) := by
      simp only [analyze_data, hr, analyzeCore, hta, defaultRateExc]
    have hcore' : trainCore (processedDf df) o =
        ([.error "No target column found for training"], .ok ()) := by
      simp only [trainCore, trainFindTarget_processedDf_none df h]
    have hrun : train_models none f o =
        (featureEvents df ++
          [Event.dataset_summary (summaryData df (analyzeFindTarget df) (some 0))]) ++
        [.error "No target column found for training"] := by
      simp only [train_models, hAnalyze, hcore']
    refine ⟨hrun, ?_, ?_⟩
    · rw [hrun]
      unfold errCount
      rw [List.filter_append, List.length_append,
        filter_len_zero (fun e he => (analyzeEvents_no_err_no_mu df (some 0) e he).1)]
      rfl
    · rw [hrun]
      unfold muCount
      rw [List.filter_append, List.length_append,
        filter_len_zero (fun e he => (analyzeEvents_no_err_no_mu df (some 0) e he).2)]
      rfl

/-- Witness for C6 on `noTargetDf`. -/
theorem claim_C6_witness :
    trainFindTarget noTargetDf = none ∧
    train_models (some noTargetDf) noTargetFile (scoreOracle 1 1 1) =
      [.error "No target column found for training"] :=
  ⟨by decide,
    (claim_C6_no_target noTargetDf noTargetFile (scoreOracle 1 1 1) (by decide)).1⟩

/-! ### Exception-handling lemmas (C7) -/

theorem trainLoop_all_mu (o : MLOracle) (names : List String) :
    ∀ best, ∀ e ∈ (trainLoop o names best).1, isModelUpdateEv e = true := by
  induction names with
  | nil => intro best e he; simp [trainLoop] at he
  | cons name rest ih =>
    intro best e he
    rcases hfit : o.fit name with msg | auc
    · simp only [trainLoop, hfit] at he
      rw [List.mem_singleton.mp he]
      rfl
    · simp only [trainLoop, hfit] at he
      rcases List.mem_cons.mp he with he | he
      · rw [he]; rfl
      rcases List.mem_cons.mp he with he | he
      · rw [he]; rfl
      exact ih _ e he

theorem trainCore_shape (df : DataFrame) (o : MLOracle) :
    (trainCore df o = ([.error "No target column found for training"], .ok ())) ∨
    (∃ evs msg, trainCore df o = (evs, .error msg) ∧
      ∀ e ∈ evs, isModelUpdateEv e = true) ∨
    (∃ evs bm bs, trainCore df o = (evs ++ [.roc_data modelNames, .best_model bm bs], .ok ()) ∧
      ∀ e ∈ evs, isModelUpdateEv e = true) := by
  rcases ht : trainFindTarget df with _ | t
  · left
    simp only [trainCore, ht]
  · right
    rcases hp : o.prep with msg | u
    · left
      exact ⟨[], msg, by simp only [trainCore, ht, hp], by simp⟩
    · rcases hl : trainLoop o modelNames (none, 0) with ⟨evs, r⟩
      have hmu : ∀ e ∈ evs, isModelUpdateEv e = true := by
        intro e he
        have := trainLoop_all_mu o modelNames (none, 0) e
        rw [hl] at this
        exact this he
      rcases r with msg | best
      · left
        exact ⟨evs, msg, by simp only [trainCore, ht, hp, hl], hmu⟩
      · right
        exact ⟨evs, best.1, best.2, by simp only [trainCore, ht, hp, hl], hmu⟩

theorem analyze_shape (f : FileInput) :
    (∃ msg, analyze_data f = ([.error msg], none, none)) ∨
    (∃ df msg, readFile f = .ok df ∧
      analyze_data f = (featureEvents df ++ [.error msg], none, none)) ∨
    (∃ df rate, readFile f = .ok df ∧
      analyze_data f =
        (featureEvents df ++
          [.dataset_summary (summaryData df (analyzeFindTarget df) rate)],
          some (processedDf df), analyzeFindTarget df)) := by
  rcases hr : readFile f with msg | df
  · left
    exact ⟨"Error analyzing data: " ++ msg, by simp only [analyze_data, hr]⟩
  · rcases hd : defaultRateExc df (analyzeFindTarget df) with msg | rate
    · right; left
      exact ⟨df, "Error analyzing data: " ++ msg, rfl,
        by simp only [analyze_data, hr, analyzeCore, hd]⟩
    · right; right
      exact ⟨df, rate, rfl, by simp only [analyze_data, hr, analyzeCore, hd]⟩

theorem errCount_append (a b : List Event) :
    errCount (a ++ b) = errCount a + errCount b := by
  unfold errCount
  rw [List.filter_append, List.length_append]

theorem mu_not_err {e : Event} (h : isModelUpdateEv e = true) : isErrorEv e = false := by
  cases e <;> first | rfl | simp [isModelUpdateEv] at h

theorem fe_not_err {e : Event} (h : isFeatureEv e = true) : isErrorEv e = false := by
  cases e <;> first | rfl | simp [isFeatureEv] at h

theorem errFree_no_err_mem {l : List Event} (hl : ∀ e ∈ l, isErrorEv e = false) :
    ∀ msg, Event.error msg ∉ l := by
  intro msg hmem
  have := hl _ hmem
  simp [isErrorEv] at this

theorem errFree_concat_err {l : List Event} (m : String)
    (hl : ∀ e ∈ l, isErrorEv e = false) :
    errCount (l ++ [Event.error m]) = 1 ∧
    ∀ msg, Event.error msg ∈ l ++ [Event.error m] →
      (l ++ [Event.error m]).getLast? = some (Event.error msg) := by
  constructor
  · rw [errCount_append]
    rw [show errCount l = 0 from filter_len_zero hl]
    rfl
  · intro msg hmem
    rcases List.mem_append.mp hmem with h | h
    · exact absurd h (errFree_no_err_mem hl msg)
    · have hm : msg = m := by
        have h2 := List.mem_singleton.mp h
        injection h2
      rw [hm, List.getLast?_concat]

theorem errFree_props {l : List Event} (hl : ∀ e ∈ l, isErrorEv e = false) :
    errCount l = 0 ∧ ∀ msg, Event.error msg ∉ l :=
  ⟨filter_len_zero hl, errFree_no_err_mem hl⟩

theorem analyzeOkEvents_no_err (df : DataFrame) (rate : Option ℚ) :
    ∀ e ∈ featureEvents df ++
        [Event.dataset_summary (summaryData df (analyzeFindTarget df) rate)],
      isErrorEv e = false := by
  intro e he
  rcases List.mem_append.mp he with h | h
  · exact fe_not_err (featureEvents_all_fe df e h)
  · rw [List.mem_singleton.mp h]
    rfl

/-- **C7.**  Neither stage lets an exception reach its caller: on every
input the event stream of a stage contains at most one `error` event, any
`error` event is the final event of the stream, and the analyze stage
returns `(none, none)` exactly when its stream ends in an `error` event. -/
theorem claim_C7_exceptions_caught (f : FileInput) (pf : Option DataFrame) (o : MLOracle) :
    errCount (analyze_data f).1 ≤ 1 ∧
    ((analyze_data f).2 = (none, none) ↔
      ∃ msg, (analyze_data f).1.getLast? = some (.error msg)) ∧
    (∀ msg, Event.error msg ∈ (analyze_data f).1 →
      (analyze_data f).1.getLast? = some (.error msg)) ∧
    errCount (train_models pf f o) ≤ 1 ∧
    (∀ msg, Event.error msg ∈ train_models pf f o →
      (train_models pf f o).getLast? = some (.error msg)) := by
  have hana : errCount (analyze_data f).1 ≤ 1 ∧
      ((analyze_data f).2 = (none, none) ↔
        ∃ msg, (analyze_data f).1.getLast? = some (.error msg)) ∧
      (∀ msg, Event.error msg ∈ (analyze_data f).1 →
        (analyze_data f).1.getLast? = some (.error msg)) := by
    rcases analyze_shape f with ⟨msg, heq⟩ | ⟨df, msg, _, heq⟩ | ⟨df, rate, _, heq⟩
    · rw [heq]
      have h := errFree_concat_err (l := []) msg (by simp)
      simp only [List.nil_append] at h
      refine ⟨le_of_eq h.1, ?_, h.2⟩
      simp
    · rw [heq]
      have h := errFree_concat_err msg
        (fun e he => fe_not_err (featureEvents_all_fe df e he))
      refine ⟨le_of_eq h.1, ?_, h.2⟩
      constructor
      · intro _
        exact ⟨msg, List.getLast?_concat _⟩
      · intro _
        rfl
    · rw [heq]
      have hfree := analyzeOkEvents_no_err df rate
      have h := errFree_props hfree
      refine ⟨by rw [h.1]; exact Nat.zero_le 1, ?_, ?_⟩
      · constructor
        · intro hcontra
          exact absurd (congrArg Prod.fst hcontra) (by simp)
        · rintro ⟨msg, hlast⟩
          rw [List.getLast?_concat] at hlast
          injection hlast with hlast
          exact absurd hlast (by simp)
      · intro msg hmem
        exact absurd hmem (h.2 msg)
  refine ⟨hana.1, hana.2.1, hana.2.2, ?_⟩
  have htrain : ∀ (df : DataFrame) (pre : List Event),
      (∀ e ∈ pre, isErrorEv e = false) →
      errCount (pre ++ (match trainCore df o with
        | (evs, .ok _) => evs
        | (evs, .error msg) => evs ++ [.error ("Error training models: " ++ msg)])) ≤ 1 ∧
      (∀ msg, Event.error msg ∈ pre ++ (match trainCore df o with
        | (evs, .ok _) => evs
        | (evs, .error msg) => evs ++ [.error ("Error training models: " ++ msg)]) →
        (pre ++ (match trainCore df o with
          | (evs, .ok _) => evs
          | (evs, .error msg) => evs ++ [.error ("Error training models: " ++ msg)])).getLast? =
          some (.error msg)) := by
    intro df pre hpre
    rcases trainCore_shape df o with heq | ⟨evs, msg, heq, hmu⟩ | ⟨evs, bm, bs, heq, hmu⟩
    · rw [heq]
      have h := errFree_concat_err (l := pre) "No target column found for training" hpre
      exact ⟨le_of_eq h.1, h.2⟩
    · rw [heq]
      have hfree : ∀ e ∈ pre ++ evs, isErrorEv e = false := by
        intro e he
        rcases List.mem_append.mp he with h | h
        · exact hpre e h
        · exact mu_not_err (hmu e h)
      have h := errFree_concat_err ("Error training models: " ++ msg) hfree
      rw [← List.append_assoc] at *
      exact ⟨le_of_eq h.1, h.2⟩
    · rw [heq]
      have hfree : ∀ e ∈ pre ++ (evs ++ [Event.roc_data modelNames, Event.best_model bm bs]),
          isErrorEv e = false := by
        intro e he
        rcases List.mem_append.mp he with h | h
        · exact hpre e h
        · rcases List.mem_append.mp h with h | h
          · exact mu_not_err (hmu e h)
          · rcases List.mem_cons.mp h with h | h
            · rw [h]; rfl
            · rw [List.mem_singleton.mp h]; rfl
      have h := errFree_props hfree
      refine ⟨by rw [h.1]; exact Nat.zero_le 1, ?_⟩
      intro msg hmem
      exact absurd hmem (h.2 msg)
  rcases pf with _ | df
  · rcases analyze_shape f with ⟨msg, heq⟩ | ⟨df, msg, _, heq⟩ | ⟨df, rate, _, heq⟩
    · have hrun : train_models none f o = [.error msg] := by
        simp only [train_models, heq]
      rw [hrun]
      have h := errFree_concat_err (l := []) msg (by simp)
      simp only [List.nil_append] at h
      exact ⟨le_of_eq h.1, h.2⟩
    · have hrun : train_models none f o = featureEvents df ++ [.error msg] := by
        simp only [train_models, heq]
      rw [hrun]
      have h := errFree_concat_err msg
        (fun e he => fe_not_err (featureEvents_all_fe df e he))
      exact ⟨le_of_eq h.1, h.2⟩
    · have hrun : train_models none f o =
          (featureEvents df ++
            [.dataset_summary (summaryData df (analyzeFindTarget df) rate)]) ++
          (match trainCore (processedDf df) o with
            | (evs, .ok _) => evs
            | (evs, .error msg) => evs ++ [.error ("Error training models: " ++ msg)]) := by
        simp only [train_models, heq]
        rcases trainCore (processedDf df) o with ⟨evs, r⟩
        rcases r with msg | u <;> simp [List.append_assoc]
      rw [hrun]
      exact htrain (processedDf df) _ (analyzeOkEvents_no_err df rate)
  · have hrun : train_models (some df) f o =
        [] ++ (match trainCore df o with
          | (evs, .ok _) => evs
          | (evs, .error msg) => evs ++ [.error ("Error training models: " ++ msg)]) := by
      simp only [train_models, List.nil_append]
    rw [hrun]
    exact htrain df [] (by simp)

/-! ### Training-run evaluation (C1, C2) -/

theorem train_run_scoreOracle (df : DataFrame) (f : FileInput) (t : String) (s₁ s₂ s₃ : ℚ)
    (ht : trainFindTarget df = some t) :
    train_models (some df) f (scoreOracle s₁ s₂ s₃) =
      [.model_update "logistic_regression" "training" none,
       .model_update "logistic_regression" "completed" (some s₁),
       .model_update "decision_tree" "training" none,
       .model_update "decision_tree" "completed" (some s₂),
       .model_update "random_forest" "training" none,
       .model_update "random_forest" "completed" (some s₃),
       .roc_data modelNames,
       .best_model (bestPair s₁ s₂ s₃).1 (bestPair s₁ s₂ s₃).2] := by
  simp only [train_models, trainCore, ht, scoreOracle, modelNames, trainLoop, bestPair]
  norm_num
  simp only [show ("decision_tree" = "logistic_regression") = False from eq_false (by decide),
    show ("random_forest" = "logistic_regression") = False from eq_false (by decide),
    show ("random_forest" = "decision_tree") = False from eq_false (by decide),
    if_false]
  simp

/-- **C2 (amended).**  In a run where all three candidates complete with at
least one strictly positive ROC-AUC, the `best_model` event names the
candidate with the maximal ROC-AUC, with ties resolved in favour of the
earlier candidate in the fixed order logistic regression, decision tree,
random forest.  (With all scores equal to 0 the code's `best_score = 0` /
strictly-greater update leaves `best_model = None`, so the positivity
hypothesis is necessary.) -/
theorem claim_C2_amended (df : DataFrame) (f : FileInput) (t : String) (s₁ s₂ s₃ : ℚ)
    (ht : trainFindTarget df = some t)
    (hpos : 0 < s₁ ∨ 0 < s₂ ∨ 0 < s₃) :
    ∃ name score,
      (train_models (some df) f (scoreOracle s₁ s₂ s₃)).getLast? =
        some (.best_model (some name) score) ∧
      s₁ ≤ score ∧ s₂ ≤ score ∧ s₃ ≤ score ∧
      ((name = "logistic_regression" ∧ score = s₁ ∧ s₂ ≤ s₁ ∧ s₃ ≤ s₁) ∨
       (name = "decision_tree" ∧ score = s₂ ∧ s₁ < s₂ ∧ s₃ ≤ s₂) ∨
       (name = "random_forest" ∧ score = s₃ ∧ s₁ < s₃ ∧ s₂ < s₃)) := by
  rw [train_run_scoreOracle df f t s₁ s₂ s₃ ht]
  rw [show ([.model_update "logistic_regression" "training" none,
       .model_update "logistic_regression" "completed" (some s₁),
       .model_update "decision_tree" "training" none,
       .model_update "decision_tree" "completed" (some s₂),
       .model_update "random_forest" "training" none,
       .model_update "random_forest" "completed" (some s₃),
       .roc_data modelNames,
       .best_model (bestPair s₁ s₂ s₃).1 (bestPair s₁ s₂ s₃).2] : List Event) =
      [.model_update "logistic_regression" "training" none,
       .model_update "logistic_regression" "completed" (some s₁),
       .model_update "decision_tree" "training" none,
       .model_update "decision_tree" "completed" (some s₂),
       .model_update "random_forest" "training" none,
       .model_update "random_forest" "completed" (some s₃),
       .roc_data modelNames] ++
      [.best_model (bestPair s₁ s₂ s₃).1 (bestPair s₁ s₂ s₃).2] from rfl,
    List.getLast?_concat]
  simp only [bestPair]
  split_ifs with h1 h2 h3 h4 h5 h6 h7 <;>
    simp only [Option.some.injEq, Event.best_model.injEq] <;>
    norm_num at * <;>
    first
      | exact ⟨"random_forest", s₃, ⟨rfl, rfl⟩, by linarith, by linarith, by linarith,
          Or.inr (Or.inr ⟨rfl, rfl, by linarith, by linarith⟩)⟩
      | exact ⟨"decision_tree", s₂, ⟨rfl, rfl⟩, by linarith, by linarith, by linarith,
          Or.inr (Or.inl ⟨rfl, rfl, by linarith, by linarith⟩)⟩
      | exact ⟨"logistic_regression", s₁, ⟨rfl, rfl⟩, by linarith, by linarith, by linarith,
          Or.inl ⟨rfl, rfl, by linarith, by linarith⟩⟩
      | (exfalso
         rcases hpos with h | h | h <;> linarith)

/-- **C2 (counterexample).**  With all three candidates completing at
ROC-AUC 0, the run ends with `best_model` carrying model `None`: no
candidate is named, refuting the claim that the `best_model` event always
names a maximal candidate whenever all three complete. -/
theorem claim_C2_counterexample :
    muCount (train_models (some tinyTrainDf) tinyTrainFile (scoreOracle 0 0 0)) = 6 ∧
    (train_models (some tinyTrainDf) tinyTrainFile (scoreOracle 0 0 0)).getLast? =
      some (.best_model none 0) ∧
    ¬ ∃ name score, Event.best_model (some name) score ∈
        train_models (some tinyTrainDf) tinyTrainFile (scoreOracle 0 0 0) := by
  have ht : trainFindTarget tinyTrainDf = some "default" := by decide
  have hrun := train_run_scoreOracle tinyTrainDf tinyTrainFile "default" 0 0 0 ht
  have hbp : bestPair 0 0 0 = (none, 0) := by simp [bestPair]
  rw [hbp] at hrun
  refine ⟨?_, ?_, ?_⟩
  · rw [hrun]; rfl
  · rw [hrun]; rfl
  · rw [hrun]
    rintro ⟨name, score, hmem⟩
    simp [modelNames] at hmem

/-- Witness for C2 (amended): scores (1/2, 1/2, 1/4) — a tie between the
first two candidates, resolved in favour of logistic regression. -/
theorem claim_C2_amended_witness :
    ∃ name score,
      (train_models (some tinyTrainDf) tinyTrainFile
        (scoreOracle (1/2) (1/2) (1/4))).getLast? =
        some (.best_model (some name) score) ∧
      (1/2 : ℚ) ≤ score ∧ (1/2 : ℚ) ≤ score ∧ (1/4 : ℚ) ≤ score ∧
      ((name = "logistic_regression" ∧ score = 1/2 ∧ (1/2 : ℚ) ≤ 1/2 ∧ (1/4 : ℚ) ≤ 1/2) ∨
       (name = "decision_tree" ∧ score = 1/2 ∧ (1/2 : ℚ) < 1/2 ∧ (1/4 : ℚ) ≤ 1/2) ∨
       (name = "random_forest" ∧ score = 1/4 ∧ (1/2 : ℚ) < 1/4 ∧ (1/2 : ℚ) < 1/4)) :=
  claim_C2_amended tinyTrainDf tinyTrainFile "default" (1/2) (1/2) (1/4)
    (by decide) (Or.inl (by norm_num))

/-! ### The end-to-end scenario (C1) -/

theorem c1_readFile : readFile c1File = .ok c1Raw := rfl

set_option maxRecDepth 4000 in
theorem c1_getCol_default : c1Raw.getCol "default" = List.replicate 1000 (Cell.num 0) := by
  simp [c1Raw, DataFrame.getCol, List.lookup]

theorem c1_defaultRate :
    defaultRateExc c1Raw (some "default") = .ok (some 0) := by
  simp only [defaultRateExc, c1_getCol_default, colMeanExc, isObjectCol_replicate_num,
    Bool.false_eq_true, if_false, filterMap_toNum_replicate, List.length_replicate,
    List.sum_replicate]
  norm_num [Except.map]

theorem c1_analyze_eq :
    analyze_data c1File =
      ([.feature_engineering "debt_to_income_ratio" "completed",
        .feature_engineering "credit_utilization_rate" "completed",
        .feature_engineering "avg_payment_delays" "completed",
        .dataset_summary (summaryData c1Raw (some "default") (some 0))],
        some (processedDf c1Raw), some "default") := by
  have hfe : featureEvents c1Raw =
      [.feature_engineering "debt_to_income_ratio" "completed",
       .feature_engineering "credit_utilization_rate" "completed",
       .feature_engineering "avg_payment_delays" "completed"] := by decide
  have hat : analyzeFindTarget c1Raw = some "default" := by decide
  simp only [analyze_data, c1_readFile, analyzeCore, hfe, hat, c1_defaultRate]
  rfl

set_option maxRecDepth 4000 in
theorem c1_processed_target : trainFindTarget (processedDf c1Raw) = some "default" := by
  decide

theorem c1_run_eq (s₁ s₂ s₃ : ℚ) :
    c1RunWith s₁ s₂ s₃ =
      [.feature_engineering "debt_to_income_ratio" "completed",
       .feature_engineering "credit_utilization_rate" "completed",
       .feature_engineering "avg_payment_delays" "completed",
       .dataset_summary (summaryData c1Raw (some "default") (some 0)),
       .model_update "logistic_regression" "training" none,
       .model_update "logistic_regression" "completed" (some s₁),
       .model_update "decision_tree" "training" none,
       .model_update "decision_tree" "completed" (some s₂),
       .model_update "random_forest" "training" none,
       .model_update "random_forest" "completed" (some s₃),
       .roc_data modelNames,
       .best_model (bestPair s₁ s₂ s₃).1 (bestPair s₁ s₂ s₃).2] := by
  unfold c1RunWith
  rw [c1_analyze_eq,
    train_run_scoreOracle (processedDf c1Raw) c1File "default" s₁ s₂ s₃ c1_processed_target]
  rfl

/-- **C1 (amended).**  On the 1000-row scenario dataset, running `analyze`
and then `train` (the three candidates completing with any scores) emits:
3 `feature_engineering` events, 1 `dataset_summary` event whose
`target_column` is `"default"`, then — per candidate, in the fixed order —
a `model_update` "training" event immediately followed by that candidate's
`model_update` "completed" event (interleaved pairs, not 3 "training"
followed by 3 "completed"), then 1 `roc_data` event with 3 keys, then 1
`best_model` event. -/
theorem claim_C1_amended (s₁ s₂ s₃ : ℚ) :
    c1RunWith s₁ s₂ s₃ =
      [.feature_engineering "debt_to_income_ratio" "completed",
       .feature_engineering "credit_utilization_rate" "completed",
       .feature_engineering "avg_payment_delays" "completed",
       .dataset_summary (summaryData c1Raw (some "default") (some 0)),
       .model_update "logistic_regression" "training" none,
       .model_update "logistic_regression" "completed" (some s₁),
       .model_update "decision_tree" "training" none,
       .model_update "decision_tree" "completed" (some s₂),
       .model_update "random_forest" "training" none,
       .model_update "random_forest" "completed" (some s₃),
       .roc_data modelNames,
       .best_model (bestPair s₁ s₂ s₃).1 (bestPair s₁ s₂ s₃).2] ∧
    (summaryData c1Raw (some "default") (some 0)).target_column = some "default" ∧
    modelNames.length = 3 :=
  ⟨c1_run_eq s₁ s₂ s₃, rfl, rfl⟩

/-- **C1 (counterexample).**  The actual combined stream does not have the
claimed shape "… 3 training updates, then 3 completed updates …": the sixth
event is a completed update, not a training update. -/
theorem claim_C1_counterexample :
    c1ClaimedShape (c1RunWith (4/5) (7/10) (9/10)) = false ∧
    (c1RunWith (4/5) (7/10) (9/10)).get? 5 =
      some (.model_update "logistic_regression" "completed" (some (4/5))) := by
  rw [c1_run_eq]
  exact ⟨rfl, rfl⟩

/-! ### Summary-describes-raw-frame lemmas (C8) -/

theorem mem_colNames_setCol_self (df : DataFrame) (n : String) (vs : List Cell) :
    n ∈ (df.setCol n vs).colNames := by
  rw [colNames_setCol]
  split
  · next h =>
    unfold DataFrame.hasCol at h
    simpa using h
  · exact List.mem_append_right _ (List.mem_singleton.mpr rfl)

theorem mem_colNames_setCol_mono (df : DataFrame) (n : String) (vs : List Cell)
    (m : String) (h : m ∈ df.colNames) : m ∈ (df.setCol n vs).colNames := by
  rw [colNames_setCol]
  split
  · exact h
  · exact List.mem_append_left _ h

theorem processed_mem_dti (df : DataFrame) (h : hasDTI df = true) :
    "debt_to_income_ratio" ∈ (processedDf df).colNames := by
  unfold processedDf
  by_cases h2 : hasCUR df = true <;> by_cases h3 : (paymentDelayCols df).isEmpty = true <;>
    simp only [h, h2, h3, if_true, if_false, Bool.false_eq_true] <;>
    (repeat
      first
        | exact mem_colNames_setCol_self _ _ _
        | apply mem_colNames_setCol_mono)

theorem processed_mem_cur (df : DataFrame) (h : hasCUR df = true) :
    "credit_utilization_rate" ∈ (processedDf df).colNames := by
  unfold processedDf
  by_cases h1 : hasDTI df = true <;> by_cases h3 : (paymentDelayCols df).isEmpty = true <;>
    simp only [h, h1, h3, if_true, if_false, Bool.false_eq_true] <;>
    (repeat
      first
        | exact mem_colNames_setCol_self _ _ _
        | apply mem_colNames_setCol_mono)

theorem processed_mem_avg (df : DataFrame) (h : (paymentDelayCols df).isEmpty = false) :
    "avg_payment_delays" ∈ (processedDf df).colNames := by
  unfold processedDf
  by_cases h1 : hasDTI df = true <;> by_cases h2 : hasCUR df = true <;>
    simp only [h, h1, h2, if_true, if_false, Bool.false_eq_true] <;>
    exact mem_colNames_setCol_self _ _ _

theorem mem_numericalCols_sub (df : DataFrame) (n : String)
    (h : n ∈ df.numericalCols) : n ∈ df.colNames := by
  unfold DataFrame.numericalCols at h
  unfold DataFrame.colNames
  rcases List.mem_map.mp h with ⟨c, hc, rfl⟩
  exact List.mem_map.mpr ⟨c, (List.mem_filter.mp hc).1, rfl⟩

theorem mem_categoricalCols_sub (df : DataFrame) (n : String)
    (h : n ∈ df.categoricalCols) : n ∈ df.colNames := by
  unfold DataFrame.categoricalCols at h
  unfold DataFrame.colNames
  rcases List.mem_map.mp h with ⟨c, hc, rfl⟩
  exact List.mem_map.mpr ⟨c, (List.mem_filter.mp hc).1, rfl⟩

theorem mem_dtypes_fst (df : DataFrame) (n d : String)
    (h : (n, d) ∈ df.cols.map (fun c => (c.1, dtypeOf c.2))) : n ∈ df.colNames := by
  unfold DataFrame.colNames
  rcases List.mem_map.mp h with ⟨c, hc, heq⟩
  refine List.mem_map.mpr ⟨c, hc, ?_⟩
  exact congrArg Prod.fst heq

/-- **C8.**  Every field of the `dataset_summary` event describes the raw
frame as loaded — counts, columns, dtypes, numeric and categorical lists are
all computed from `df`, not from `df_processed` — so a derived column name
absent from the raw frame never appears in any summary field, even though
(when its prerequisites hold) it is present in the persisted processed
frame. -/
theorem claim_C8_summary_raw_only (df : DataFrame) (evs : List Event)
    (r : DataFrame × Option String)
    (hok : analyzeCore df = (evs, .ok r)) :
    ∃ s, evs.getLast? = some (.dataset_summary s) ∧
      s.totalRecords = df.nrows ∧
      s.features = df.cols.length ∧
      s.missingValues = df.missingValues ∧
      s.columns = df.colNames ∧
      s.dtypes = df.cols.map (fun c => (c.1, dtypeOf c.2)) ∧
      s.numerical_cols = df.numericalCols ∧
      s.categorical_cols = df.categoricalCols ∧
      (∀ n ∈ ["debt_to_income_ratio", "credit_utilization_rate", "avg_payment_delays"],
        n ∉ df.colNames →
          n ∉ s.columns ∧ n ∉ s.numerical_cols ∧ n ∉ s.categorical_cols ∧
          ∀ d, (n, d) ∉ s.dtypes) ∧
      (hasDTI df = true → "debt_to_income_ratio" ∈ r.1.colNames) ∧
      (hasCUR df = true → "credit_utilization_rate" ∈ r.1.colNames) ∧
      ((paymentDelayCols df).isEmpty = false → "avg_payment_delays" ∈ r.1.colNames) := by
  simp only [analyzeCore] at hok
  rcases hd : defaultRateExc df (analyzeFindTarget df) with msg | rate
  · rw [hd] at hok
    simp at hok
  · rw [hd] at hok
    have hevs : featureEvents df ++
        [Event.dataset_summary (summaryData df (analyzeFindTarget df) rate)] = evs :=
      congrArg Prod.fst hok
    have hr : (Except.ok (processedDf df, analyzeFindTarget df) :
        Except String (DataFrame × Option String)) = Except.ok r :=
      congrArg Prod.snd hok
    have hr2 : r = (processedDf df, analyzeFindTarget df) := by
      injection hr with hr
      exact hr.symm
    refine ⟨summaryData df (analyzeFindTarget df) rate, ?_, rfl, rfl, rfl, rfl, rfl, rfl, rfl,
      ?_, ?_, ?_, ?_⟩
    · rw [← hevs, List.getLast?_concat]
    · intro n _ hn
      refine ⟨hn, fun hc => hn (mem_numericalCols_sub df n hc),
        fun hc => hn (mem_categoricalCols_sub df n hc),
        fun d hc => hn (mem_dtypes_fst df n d hc)⟩
    · intro h
      rw [hr2]
      exact processed_mem_dti df h
    · intro h
      rw [hr2]
      exact processed_mem_cur df h
    · intro h
      rw [hr2]
      exact processed_mem_avg df h

/-- Witness for C8 at the scenario dataset `c1Raw`, whose raw columns do not
contain the derived names while its processed frame contains all three. -/
theorem claim_C8_witness :
    ∃ s, ([Event.feature_engineering "debt_to_income_ratio" "completed",
        Event.feature_engineering "credit_utilization_rate" "completed",
        Event.feature_engineering "avg_payment_delays" "completed",
        Event.dataset_summary (summaryData c1Raw (some "default") (some 0))].getLast? =
          some (.dataset_summary s)) ∧
      s.totalRecords = c1Raw.nrows ∧
      s.features = c1Raw.cols.length ∧
      s.missingValues = c1Raw.missingValues ∧
      s.columns = c1Raw.colNames ∧
      s.dtypes = c1Raw.cols.map (fun c => (c.1, dtypeOf c.2)) ∧
      s.numerical_cols = c1Raw.numericalCols ∧
      s.categorical_cols = c1Raw.categoricalCols ∧
      (∀ n ∈ ["debt_to_income_ratio", "credit_utilization_rate", "avg_payment_delays"],
        n ∉ c1Raw.colNames →
          n ∉ s.columns ∧ n ∉ s.numerical_cols ∧ n ∉ s.categorical_cols ∧
          ∀ d, (n, d) ∉ s.dtypes) ∧
      (hasDTI c1Raw = true →
        "debt_to_income_ratio" ∈ (processedDf c1Raw, some "default").1.colNames) ∧
      (hasCUR c1Raw = true →
        "credit_utilization_rate" ∈ (processedDf c1Raw, some "default").1.colNames) ∧
      ((paymentDelayCols c1Raw).isEmpty = false →
        "avg_payment_delays" ∈ (processedDf c1Raw, some "default").1.colNames) := by
  refine claim_C8_summary_raw_only c1Raw _ _ ?_
  have hfe : featureEvents c1Raw =
      [.feature_engineering "debt_to_income_ratio" "completed",
       .feature_engineering "credit_utilization_rate" "completed",
       .feature_engineering "avg_payment_delays" "completed"] := by decide
  have hat : analyzeFindTarget c1Raw = some "default" := by decide
  simp only [analyzeCore, hfe, hat, c1_defaultRate]
  rfl
